import Mathlib

/-!
Shallow embedding of `evilArc3.py`, a proof-of-concept archive builder that
stores one designated "target" file under a directory-traversal path while
every other input file is stored under its bare base name.

Paths are POSIX strings.  The `os.path` helpers the program calls
(`basename`, `splitext`, `abspath` with its `normpath` / `join` internals)
are embedded below following CPython's `posixpath` implementation.  The one
piece of filesystem state `build_archive` consults — whether a file already
exists at the output name, and, if so, which entries the existing archive
holds (relevant because zip and plain tar are then opened in append mode) —
is passed explicitly as the `pre` argument.  `sys.exit(msg)` is modelled as
`Except.error msg`.
-/

namespace EvilArc

/-- Python's `str.split(sep)` for a one-character separator: split at every
occurrence of `sep`, keeping empty pieces. -/
def splitChar (sep : Char) : List Char → List (List Char)
  | [] => [[]]
  | c :: cs =>
    match splitChar sep cs with
    | r :: rs => if c = sep then [] :: r :: rs else (c :: r) :: rs
    | [] => [[c]]

/-- The `initial_slashes` count of `posixpath.normpath`: 1 for a path that
starts with `/`, except that exactly two leading slashes (a POSIX
implementation-defined root) are preserved as 2; three or more collapse
to 1. -/
def initialSlashes (cs : List Char) : Nat :=
  match cs with
  | '/' :: '/' :: '/' :: _ => 1
  | '/' :: '/' :: _ => 2
  | '/' :: _ => 1
  | _ => 0

/-- One step of the component loop of `posixpath.normpath`.  `acc` holds the
kept components in reverse order (head = most recently kept), so Python's
`new_comps[-1]` is `acc.head?` and `new_comps.pop()` is `acc.tail`. -/
def normStep (slashes : Nat) (acc : List (List Char)) (comp : List Char) :
    List (List Char) :=
  if comp = [] ∨ comp = ['.'] then acc
  else if comp ≠ ['.', '.'] ∨ (slashes = 0 ∧ acc = []) ∨ acc.head? = some ['.', '.'] then
    comp :: acc
  else acc.tail

/-- `'/'.join(comps)` over character-list components. -/
def joinSlash : List (List Char) → List Char
  | [] => []
  | [c] => c
  | c :: cs => c ++ '/' :: joinSlash cs

/-- CPython `posixpath.normpath`: collapse `//`, `.` and resolvable `..`
segments, returning `"."` for an empty result. -/
def normpath (p : String) : String :=
  if p = "" then "."
  else
    let slashes := initialSlashes p.data
    let comps := splitChar '/' p.data
    let kept := (comps.foldl (normStep slashes) []).reverse
    let res := List.replicate slashes '/' ++ joinSlash kept
    if res = [] then "." else String.mk res

/-- CPython `posixpath.join` for two arguments. -/
def pjoin (a b : String) : String :=
  if b.data.head? = some '/' then b
  else if a = "" ∨ a.data.getLast? = some '/' then a ++ b
  else a ++ "/" ++ b

/-- CPython `posixpath.abspath`, with the process working directory `cwd`
passed explicitly (the program reads it implicitly via `os.getcwd()`). -/
def abspath (cwd p : String) : String :=
  if p.data.head? = some '/' then normpath p else normpath (pjoin cwd p)

/-- CPython `posixpath.basename`: the characters after the last `/`
(equivalently, the reversed maximal slash-free suffix, reversed back). -/
def basename (p : String) : String :=
  String.mk ((p.data.reverse.takeWhile (fun c => c != '/')).reverse)

/-- Index of the last occurrence of `c`, Python's `str.rfind` restricted to
one character (`none` standing for `-1`). -/
def lastIndexOf (c : Char) : List Char → Option Nat
  | [] => none
  | x :: xs =>
    match lastIndexOf c xs with
    | some i => some (i + 1)
    | none => if x = c then some 0 else none

/-- The extension component of CPython `os.path.splitext` (posix flavour):
everything from the last dot onward, provided that dot lies after the last
`/` and some non-dot character stands between them (so leading dots of a
hidden-file base name never start an extension). -/
def splitextExt (p : String) : String :=
  let cs := p.data
  match lastIndexOf '.' cs with
  | none => ""
  | some dotIdx =>
    let start : Nat :=
      match lastIndexOf '/' cs with
      | none => 0
      | some sepIdx => sepIdx + 1
    if start ≤ dotIdx then
      if ((cs.drop start).take (dotIdx - start)).any (fun c => c != '.') then
        String.mk (cs.drop dotIdx)
      else ""
    else ""

/-- Python's `str.lower()` (ASCII range, which is all the program compares). -/
def lowerStr (s : String) : String :=
  String.mk (s.data.map Char.toLower)

/-- Python's `s.endswith(('/', '\\'))`: does the string end in a slash or a
backslash? -/
def endsWithSlashOrBackslash (s : String) : Bool :=
  match s.data.getLast? with
  | some c => c == '/' || c == '\\'
  | none => false

/-- Lines 28-29 of `build_archive`: append a single `'/'` when the supplied
traversal path is nonempty and does not already end in a separator. -/
def normTraversal (tp : String) : String :=
  if tp ≠ "" ∧ endsWithSlashOrBackslash tp = false then tp ++ "/" else tp

/-- The nested `internal_name` of `build_archive` (lines 34-38): the name a
file is stored under inside the archive.  `traversal_path` is the
already-normalized traversal path the closure captures; `cwd` is the working
directory `os.path.abspath` resolves relative paths against. -/
def internal_name (cwd target traversal_path fname : String) : String :=
  if abspath cwd fname = abspath cwd target then traversal_path ++ basename fname
  else basename fname

/-- The archive writer the extension dispatch selects: `zipfile.ZipFile`
(also used for `.jar`), `tarfile` uncompressed, `tarfile` with `w:gz`, or
`tarfile` with `w:bz2`. -/
inductive Writer
  | zip
  | tar
  | targz
  | tarbz2
deriving DecidableEq

/-- The observable result of a build: which writer produced the file and the
ordered directory listing of (internal name, source file) entries. -/
structure Archive where
  writer : Writer
  entries : List (String × String)
deriving DecidableEq

/-- `build_archive(files, traversal_path, target, out_name)` (lines 22-57).
`pre = some old` models `os.path.exists(out_name)` being true with `old` the
entries the existing archive already holds (so `wmode = 'a'` and the zip and
plain-tar writers append); `pre = none` models a fresh output (`wmode = 'w'`).
The `w:gz` and `w:bz2` tar modes always truncate, so they ignore `pre`.
An unrecognized extension reaches `sys.exit`, i.e. `Except.error`. -/
def build_archive (cwd : String) (files : List String)
    (traversal_path target out_name : String)
    (pre : Option (List (String × String))) : Except String Archive :=
  let tp := normTraversal traversal_path
  let ext := lowerStr (splitextExt out_name)
  let entries := files.map (fun f => (internal_name cwd target tp f, f))
  if ext = ".zip" ∨ ext = ".jar" then
    Except.ok ⟨Writer.zip, pre.getD [] ++ entries⟩
  else if ext = ".tar" then
    Except.ok ⟨Writer.tar, pre.getD [] ++ entries⟩
  else if ext = ".gz" ∨ ext = ".tgz" then
    Except.ok ⟨Writer.targz, entries⟩
  else if ext = ".bz2" then
    Except.ok ⟨Writer.tarbz2, entries⟩
  else
    Except.error ("Unsupported archive extension: " ++ ext)

/-! ### General string and list helper lemmas -/

theorem string_data_append (s t : String) : (s ++ t).data = s.data ++ t.data := rfl

theorem string_eq_of_data {s t : String} (h : s.data = t.data) : s = t := by
  cases s
  cases t
  exact congrArg String.mk h

theorem string_empty_append (s : String) : "" ++ s = s :=
  string_eq_of_data rfl

theorem append_ne_right {s t : String} (h : s ≠ "") : s ++ t ≠ t := by
  intro he
  apply h
  have hd : s.data ++ t.data = t.data := by
    have hc := congrArg String.data he
    rwa [string_data_append] at hc
  have hl := congrArg List.length hd
  rw [List.length_append] at hl
  have hz : s.data.length = 0 := by omega
  exact string_eq_of_data (by simpa using List.length_eq_zero.mp hz)

/-! ### Lemmas about the embedded program -/

theorem ends_append_slash (tp : String) :
    endsWithSlashOrBackslash (tp ++ "/") = true := by
  unfold endsWithSlashOrBackslash
  rw [string_data_append, show ("/" : String).data = ['/'] from rfl,
    List.getLast?_concat]
  rfl

theorem append_slash_ne_empty (tp : String) : tp ++ "/" ≠ "" := by
  intro h
  have hc := congrArg String.data h
  rw [string_data_append] at hc
  simp at hc

theorem normTraversal_eq_append {tp : String} (h1 : tp ≠ "")
    (h2 : endsWithSlashOrBackslash tp = false) :
    normTraversal tp = tp ++ "/" := by
  simp [normTraversal, h1, h2]

theorem normTraversal_slash_terminated (tp : String) :
    normTraversal (tp ++ "/") = tp ++ "/" := by
  simp [normTraversal, ends_append_slash]

theorem normTraversal_ne_empty {tp : String} (h : tp ≠ "") :
    normTraversal tp ≠ "" := by
  unfold normTraversal
  split
  · exact append_slash_ne_empty tp
  · exact h

theorem internal_name_empty (cwd target f : String) :
    internal_name cwd target (normTraversal "") f = basename f := by
  unfold internal_name
  split
  · exact string_empty_append (basename f)
  · rfl

/-- A successful build yields, as its directory listing, either the
pre-existing entries followed by the freshly computed ones (zip / plain tar
in append mode) or the fresh ones alone (write mode, or a truncating
compressed tar mode). -/
theorem entries_of_ok {cwd : String} {files : List String}
    {tp target out : String} {pre : Option (List (String × String))}
    {arch : Archive}
    (h : build_archive cwd files tp target out pre = Except.ok arch) :
    arch.entries
        = pre.getD [] ++ files.map (fun f => (internal_name cwd target (normTraversal tp) f, f))
      ∨ arch.entries
        = files.map (fun f => (internal_name cwd target (normTraversal tp) f, f)) := by
  simp only [build_archive] at h
  split at h
  · injection h with h
    subst h
    exact Or.inl rfl
  · split at h
    · injection h with h
      subst h
      exact Or.inl rfl
    · split at h
      · injection h with h
        subst h
        exact Or.inr rfl
      · split at h
        · injection h with h
          subst h
          exact Or.inr rfl
        · simp at h

/-- With no pre-existing output file, the listing is exactly the map over the
input files. -/
theorem entries_of_ok_none {cwd : String} {files : List String}
    {tp target out : String} {arch : Archive}
    (h : build_archive cwd files tp target out none = Except.ok arch) :
    arch.entries
      = files.map (fun f => (internal_name cwd target (normTraversal tp) f, f)) := by
  rcases entries_of_ok h with h' | h'
  · simpa using h'
  · exact h'

/-- Every input file contributes its computed entry to a successful build. -/
theorem mem_entries_of_ok {cwd : String} {files : List String}
    {tp target out : String} {pre : Option (List (String × String))}
    {arch : Archive} {f : String}
    (h : build_archive cwd files tp target out pre = Except.ok arch)
    (hf : f ∈ files) :
    (internal_name cwd target (normTraversal tp) f, f) ∈ arch.entries := by
  rcases entries_of_ok h with h' | h'
  · rw [h']
    exact List.mem_append_right _ (List.mem_map_of_mem _ hf)
  · rw [h']
    exact List.mem_map_of_mem _ hf

/-- A successful build determines writer and listing together: the zip and
plain-tar branches honour the append mode (pre-existing entries first),
while the `w:gz` / `w:bz2` branches truncate and list only the fresh
entries. -/
theorem build_ok_cases {cwd : String} {files : List String}
    {tp target out : String} {pre : Option (List (String × String))}
    {arch : Archive}
    (h : build_archive cwd files tp target out pre = Except.ok arch) :
    ((arch.writer = Writer.zip ∨ arch.writer = Writer.tar)
        ∧ arch.entries
          = pre.getD [] ++ files.map (fun f => (internal_name cwd target (normTraversal tp) f, f)))
      ∨ ((arch.writer = Writer.targz ∨ arch.writer = Writer.tarbz2)
        ∧ arch.entries
          = files.map (fun f => (internal_name cwd target (normTraversal tp) f, f))) := by
  simp only [build_archive] at h
  split at h
  · injection h with h
    subst h
    exact Or.inl ⟨Or.inl rfl, rfl⟩
  · split at h
    · injection h with h
      subst h
      exact Or.inl ⟨Or.inr rfl, rfl⟩
    · split at h
      · injection h with h
        subst h
        exact Or.inr ⟨Or.inl rfl, rfl⟩
      · split at h
        · injection h with h
          subst h
          exact Or.inr ⟨Or.inr rfl, rfl⟩
        · simp at h

/-- `build_archive` depends on the traversal path only through its
normalization. -/
theorem build_archive_tp_congr {tp tp' : String}
    (h : normTraversal tp = normTraversal tp')
    (cwd : String) (files : List String) (target out : String)
    (pre : Option (List (String × String))) :
    build_archive cwd files tp target out pre
      = build_archive cwd files tp' target out pre := by
  simp only [build_archive, h]

/-! ### Claim theorems -/

/-- C1: for every successful build whose input list contains the designated
target file, the target's archive entry has internal name exactly
`normTraversal traversal_path ++ basename target` — the normalization appends
one trailing separator when the traversal path is nonempty and does not
already end in one, and the stored name is the verbatim concatenation, with
no further sanitization or collapsing of `..` segments. -/
theorem c1_target_entry (cwd : String) (files : List String)
    (tp target out : String) (pre : Option (List (String × String)))
    (arch : Archive)
    (h : build_archive cwd files tp target out pre = Except.ok arch)
    (f : String) (hf : f ∈ files) (hft : f = target) :
    (normTraversal tp ++ basename target, f) ∈ arch.entries := by
  subst hft
  have hm := mem_entries_of_ok h hf
  have hn : internal_name cwd f (normTraversal tp) f
      = normTraversal tp ++ basename f := by
    unfold internal_name
    rw [if_pos rfl]
  exact hn ▸ hm

/-- Witness for C1: the spec's own scenario — target `a.txt` with traversal
path `../../tmp/evil` is stored as `../../tmp/evil/a.txt`. -/
theorem c1_target_entry_witness :
    (normTraversal "../../tmp/evil" ++ basename "a.txt", "a.txt") ∈
      (Archive.mk Writer.zip
        [("../../tmp/evil/a.txt", "a.txt"), ("b.txt", "b.txt")]).entries :=
  c1_target_entry "/w" ["a.txt", "b.txt"] "../../tmp/evil" "a.txt" "x.zip" none
    (Archive.mk Writer.zip
      [("../../tmp/evil/a.txt", "a.txt"), ("b.txt", "b.txt")])
    rfl "a.txt" (by decide) rfl

/-- C2: for every input file whose canonical absolute path differs from the
target's, the computed internal name is exactly `basename file`, with no
directory prefix, and the corresponding entry is in the archive. -/
theorem c2_nontarget_entry (cwd : String) (files : List String)
    (tp target out : String) (pre : Option (List (String × String)))
    (arch : Archive)
    (h : build_archive cwd files tp target out pre = Except.ok arch)
    (f : String) (hf : f ∈ files)
    (hne : abspath cwd f ≠ abspath cwd target) :
    internal_name cwd target (normTraversal tp) f = basename f
      ∧ (basename f, f) ∈ arch.entries := by
  have hm := mem_entries_of_ok h hf
  have hn : internal_name cwd target (normTraversal tp) f = basename f := by
    unfold internal_name
    rw [if_neg hne]
  exact ⟨hn, hn ▸ hm⟩

/-- Witness for C2: `b.txt` is not the target `a.txt`, so it is stored as
plain `b.txt`. -/
theorem c2_nontarget_entry_witness :
    internal_name "/w" "a.txt" (normTraversal "../x") "b.txt" = basename "b.txt"
      ∧ (basename "b.txt", "b.txt") ∈
        (Archive.mk Writer.zip
          [("../x/a.txt", "a.txt"), ("b.txt", "b.txt")]).entries :=
  c2_nontarget_entry "/w" ["a.txt", "b.txt"] "../x" "a.txt" "x.zip" none
    (Archive.mk Writer.zip [("../x/a.txt", "a.txt"), ("b.txt", "b.txt")])
    rfl "b.txt" (by decide) (by decide)

/-- C5: target selection compares canonical absolute paths, not strings —
every input file whose `abspath` equals the target's `abspath` receives the
traversal prefix, whether it is spelled relatively or absolutely. -/
theorem c5_path_identity (cwd : String) (files : List String)
    (tp target out : String) (pre : Option (List (String × String)))
    (arch : Archive)
    (h : build_archive cwd files tp target out pre = Except.ok arch)
    (f : String) (hf : f ∈ files)
    (heq : abspath cwd f = abspath cwd target) :
    (normTraversal tp ++ basename f, f) ∈ arch.entries := by
  have hm := mem_entries_of_ok h hf
  have hn : internal_name cwd target (normTraversal tp) f
      = normTraversal tp ++ basename f := by
    unfold internal_name
    rw [if_pos heq]
  exact hn ▸ hm

/-- Witness for C5: with working directory `/w` and target `/w/a.txt`, both
the relative spelling `a.txt` and the absolute spelling `/w/a.txt` match the
target (though only one equals it as a string) and receive the prefix. -/
theorem c5_path_identity_witness :
    (normTraversal "../x" ++ basename "a.txt", "a.txt") ∈
      (Archive.mk Writer.zip
        [("../x/a.txt", "a.txt"), ("../x/a.txt", "/w/a.txt")]).entries
    ∧ (normTraversal "../x" ++ basename "/w/a.txt", "/w/a.txt") ∈
      (Archive.mk Writer.zip
        [("../x/a.txt", "a.txt"), ("../x/a.txt", "/w/a.txt")]).entries :=
  ⟨c5_path_identity "/w" ["a.txt", "/w/a.txt"] "../x" "/w/a.txt" "o.zip" none
      (Archive.mk Writer.zip
        [("../x/a.txt", "a.txt"), ("../x/a.txt", "/w/a.txt")])
      rfl "a.txt" (by decide) (by decide),
   c5_path_identity "/w" ["a.txt", "/w/a.txt"] "../x" "/w/a.txt" "o.zip" none
      (Archive.mk Writer.zip
        [("../x/a.txt", "a.txt"), ("../x/a.txt", "/w/a.txt")])
      rfl "/w/a.txt" (by decide) (by decide)⟩

/-- C6: traversal-path normalization is idempotent — for any traversal path
that is nonempty and not separator-terminated (such as `"a/b"`), building
with it and building with the slash-terminated form (`"a/b/"`) produce
identical archives; a supplied trailing separator never yields a double
separator. -/
theorem c6_idempotent (tp : String) (h1 : tp ≠ "")
    (h2 : endsWithSlashOrBackslash tp = false)
    (cwd : String) (files : List String) (target out : String)
    (pre : Option (List (String × String))) :
    build_archive cwd files tp target out pre
      = build_archive cwd files (tp ++ "/") target out pre := by
  apply build_archive_tp_congr
  rw [normTraversal_eq_append h1 h2, normTraversal_slash_terminated]

/-- Witness for C6 at the claim's own inputs: `"a/b"` versus `"a/b/"`. -/
theorem c6_idempotent_witness :
    build_archive "/w" ["a.txt"] "a/b" "a.txt" "o.zip" none
      = build_archive "/w" ["a.txt"] "a/b/" "a.txt" "o.zip" none :=
  c6_idempotent "a/b" (by decide) (by decide) "/w" ["a.txt"] "a.txt" "o.zip" none

/-- C7: for every output name whose lower-cased extension is none of the
recognized ones (`.zip`, `.jar`, `.tar`, `.gz`, `.tgz`, `.bz2`), the build
terminates with the unsupported-format error — it returns no archive at all,
so nothing is written and no default format is fallen back to. -/
theorem c7_unsupported_ext (out : String)
    (h1 : lowerStr (splitextExt out) ≠ ".zip")
    (h2 : lowerStr (splitextExt out) ≠ ".jar")
    (h3 : lowerStr (splitextExt out) ≠ ".tar")
    (h4 : lowerStr (splitextExt out) ≠ ".gz")
    (h5 : lowerStr (splitextExt out) ≠ ".tgz")
    (h6 : lowerStr (splitextExt out) ≠ ".bz2")
    (cwd : String) (files : List String) (tp target : String)
    (pre : Option (List (String × String))) :
    build_archive cwd files tp target out pre
      = Except.error ("Unsupported archive extension: "
          ++ lowerStr (splitextExt out)) := by
  simp [build_archive, h1, h2, h3, h4, h5, h6]

/-- Witness for C7 at the spec's scenario `x.rar`. -/
theorem c7_unsupported_ext_witness :
    build_archive "/w" ["a.txt"] "../x" "a.txt" "x.rar" none
      = Except.error "Unsupported archive extension: .rar" :=
  c7_unsupported_ext "x.rar" (by decide) (by decide) (by decide) (by decide)
    (by decide) (by decide) "/w" ["a.txt"] "../x" "a.txt" none

/-- C8: format selection is a function of the output name's lower-cased
extension alone — two output names with the same lower-cased extension
produce identical builds — and the extension-to-writer mapping is: `.zip` and
`.jar` to the zip writer, `.tar` to the plain tar writer, `.gz` and `.tgz`
to the gzip tar writer, `.bz2` to the bzip2 tar writer. -/
theorem c8_format_dispatch :
    (∀ out out' : String,
        lowerStr (splitextExt out) = lowerStr (splitextExt out') →
        ∀ (cwd : String) (files : List String) (tp target : String)
          (pre : Option (List (String × String))),
          build_archive cwd files tp target out pre
            = build_archive cwd files tp target out' pre)
    ∧ Except.map Archive.writer
        (build_archive "/w" ["a.txt"] "p" "a.txt" "o.zip" none)
        = Except.ok Writer.zip
    ∧ Except.map Archive.writer
        (build_archive "/w" ["a.txt"] "p" "a.txt" "o.jar" none)
        = Except.ok Writer.zip
    ∧ Except.map Archive.writer
        (build_archive "/w" ["a.txt"] "p" "a.txt" "o.tar" none)
        = Except.ok Writer.tar
    ∧ Except.map Archive.writer
        (build_archive "/w" ["a.txt"] "p" "a.txt" "o.gz" none)
        = Except.ok Writer.targz
    ∧ Except.map Archive.writer
        (build_archive "/w" ["a.txt"] "p" "a.txt" "o.tgz" none)
        = Except.ok Writer.targz
    ∧ Except.map Archive.writer
        (build_archive "/w" ["a.txt"] "p" "a.txt" "o.bz2" none)
        = Except.ok Writer.tarbz2 := by
  refine ⟨?_, rfl, rfl, rfl, rfl, rfl, rfl⟩
  intro out out' h cwd files tp target pre
  simp only [build_archive, h]

/-- Witness for C8 at the spec's pair: `out.ZIP` and `out.zip` build the
same archive. -/
theorem c8_format_dispatch_witness :
    build_archive "/w" ["a.txt"] "p" "a.txt" "out.ZIP" none
      = build_archive "/w" ["a.txt"] "p" "a.txt" "out.zip" none :=
  c8_format_dispatch.1 "out.ZIP" "out.zip" rfl "/w" ["a.txt"] "p" "a.txt" none

/-- C9: an empty traversal path is left empty by the normalization (no
separator is appended), every file — the target included — is then stored
under its bare base name, and the choice of target no longer affects the
build at all. -/
theorem c9_empty_traversal :
    normTraversal "" = ""
    ∧ (∀ cwd target f : String,
        internal_name cwd target (normTraversal "") f = basename f)
    ∧ (∀ (cwd : String) (files : List String) (target target' out : String)
        (pre : Option (List (String × String))),
        build_archive cwd files "" target out pre
          = build_archive cwd files "" target' out pre) := by
  refine ⟨rfl, fun cwd target f => internal_name_empty cwd target f, ?_⟩
  intro cwd files target target' out pre
  simp only [build_archive, internal_name_empty]

/-- C3 counterexample: listing the same file under two spellings
(`a.txt` and `./a.txt`) with target `a.txt` makes BOTH entries carry the
traversal prefix `../x/`, refuting "precisely one entry carries the
traversal prefix" for this input file list containing the target. -/
theorem c3_counterexample :
    build_archive "/w" ["a.txt", "./a.txt"] "../x" "a.txt" "o.zip" none
      = Except.ok (Archive.mk Writer.zip
          [("../x/a.txt", "a.txt"), ("../x/a.txt", "./a.txt")])
    ∧ Except.map
        (fun a => a.entries.countP
          (fun e => (normTraversal "../x").data.isPrefixOf e.1.data))
        (build_archive "/w" ["a.txt", "./a.txt"] "../x" "a.txt" "o.zip" none)
      = Except.ok 2 :=
  ⟨rfl, rfl⟩

/-- C3 amended: the traversal prefix goes to precisely those entries whose
input file resolves to the target's canonical absolute path; so for a
nonempty traversal path, when the target is listed exactly once and no other
listed file resolves to its canonical path, exactly one entry of a fresh
build is stored under anything other than its bare base name. -/
theorem c3_exactly_one_prefixed (cwd : String) (files : List String)
    (tp target out : String) (arch : Archive)
    (htp : tp ≠ "")
    (huniq : ∀ f ∈ files, abspath cwd f = abspath cwd target → f = target)
    (hcount : files.count target = 1)
    (h : build_archive cwd files tp target out none = Except.ok arch) :
    arch.entries.countP (fun e => e.1 != basename e.2) = 1 := by
  rw [entries_of_ok_none h, List.countP_map]
  have hpt : ∀ f ∈ files,
      (((fun e : String × String => e.1 != basename e.2) ∘
        fun f => (internal_name cwd target (normTraversal tp) f, f)) f = true)
        ↔ ((f == target) = true) := by
    intro f hf
    simp only [Function.comp_apply]
    by_cases hd : abspath cwd f = abspath cwd target
    · have hft : f = target := huniq f hf hd
      have h1 : internal_name cwd target (normTraversal tp) f
          = normTraversal tp ++ basename f := by
        unfold internal_name
        rw [if_pos hd]
      rw [h1]
      constructor
      · intro _
        simp [hft]
      · intro _
        simp only [bne_iff_ne, ne_eq]
        exact append_ne_right (normTraversal_ne_empty htp)
    · have hft : f ≠ target := fun he => hd (he ▸ rfl)
      have h1 : internal_name cwd target (normTraversal tp) f = basename f := by
        unfold internal_name
        rw [if_neg hd]
      rw [h1]
      constructor
      · intro hne
        simp [bne_self_eq_false] at hne
      · intro he
        exact absurd (beq_iff_eq.mp he) hft
  rw [List.countP_congr hpt, ← List.count_eq_countP]
  exact hcount

/-- Witness for C3's amended statement: a fresh build over two distinct
files with a nonempty traversal path has exactly one entry whose stored name
differs from its bare base name. -/
theorem c3_exactly_one_prefixed_witness :
    (Archive.mk Writer.zip
      [("../x/a.txt", "a.txt"), ("b.txt", "b.txt")]).entries.countP
        (fun e => e.1 != basename e.2) = 1 :=
  c3_exactly_one_prefixed "/w" ["a.txt", "b.txt"] "../x" "a.txt" "x.zip"
    (Archive.mk Writer.zip [("../x/a.txt", "a.txt"), ("b.txt", "b.txt")])
    (by decide) (by decide) (by decide) rfl

/-- C4 counterexample: when an archive already exists at the output name,
the zip writer opens in append mode, so a build over one input file yields
an archive whose listing has two entries — not `len(files) = 1`. -/
theorem c4_counterexample :
    Except.map (fun a => a.entries.length)
      (build_archive "/w" ["a.txt"] "../x" "a.txt" "o.zip"
        (some [("old.txt", "old.txt")]))
      = Except.ok 2
    ∧ (["a.txt"] : List String).length = 1
    ∧ build_archive "/w" ["a.txt"] "../x" "a.txt" "o.zip"
        (some [("old.txt", "old.txt")])
      = Except.ok (Archive.mk Writer.zip
          [("old.txt", "old.txt"), ("../x/a.txt", "a.txt")]) :=
  ⟨rfl, rfl, rfl⟩

/-- C4 amended: when no file exists at the output name, the produced archive
contains exactly one entry per input file, in input order; when one does
exist, the zip and plain-tar writers open in append mode and list the
pre-existing entries followed by the new ones, while the truncating
compressed tar modes (`w:gz` / `w:bz2`) list only the new entries — in every
case the new entries appear in input order. -/
theorem c4_entry_count :
    (∀ (cwd : String) (files : List String) (tp target out : String)
        (arch : Archive),
        build_archive cwd files tp target out none = Except.ok arch →
        arch.entries
            = files.map (fun f => (internal_name cwd target (normTraversal tp) f, f))
          ∧ arch.entries.length = files.length)
    ∧ (∀ (cwd : String) (files : List String) (tp target out : String)
        (old : List (String × String)) (arch : Archive),
        build_archive cwd files tp target out (some old) = Except.ok arch →
        ((arch.writer = Writer.zip ∨ arch.writer = Writer.tar) →
          arch.entries
            = old ++ files.map (fun f => (internal_name cwd target (normTraversal tp) f, f)))
        ∧ ((arch.writer = Writer.targz ∨ arch.writer = Writer.tarbz2) →
          arch.entries
            = files.map (fun f => (internal_name cwd target (normTraversal tp) f, f)))) := by
  constructor
  · intro cwd files tp target out arch h
    have he := entries_of_ok_none h
    exact ⟨he, by rw [he, List.length_map]⟩
  · intro cwd files tp target out old arch h
    rcases build_ok_cases h with ⟨hw, he⟩ | ⟨hw, he⟩
    · refine ⟨fun _ => by simpa only [Option.getD_some] using he, fun hw2 => ?_⟩
      rcases hw with hw | hw <;> rcases hw2 with hw2 | hw2 <;>
        rw [hw] at hw2 <;> exact Writer.noConfusion hw2
    · refine ⟨fun hw2 => ?_, fun _ => he⟩
      rcases hw with hw | hw <;> rcases hw2 with hw2 | hw2 <;>
        rw [hw] at hw2 <;> exact Writer.noConfusion hw2

/-- Witness for C4's amended statement: a fresh two-file build lists exactly
those two entries in input order; an appending zip build over a pre-existing
entry lists the old entry first; and a `w:gz` build over the same
pre-existing output truncates it, listing only the new entry. -/
theorem c4_entry_count_witness :
    ((Archive.mk Writer.zip
        [("../x/a.txt", "a.txt"), ("b.txt", "b.txt")]).entries
        = (["a.txt", "b.txt"] : List String).map
            (fun f => (internal_name "/w" "a.txt" (normTraversal "../x") f, f))
      ∧ (Archive.mk Writer.zip
          [("../x/a.txt", "a.txt"), ("b.txt", "b.txt")]).entries.length
          = (["a.txt", "b.txt"] : List String).length)
    ∧ (Archive.mk Writer.zip
        [("old.txt", "old.txt"), ("../x/a.txt", "a.txt")]).entries
        = [("old.txt", "old.txt")] ++ (["a.txt"] : List String).map
            (fun f => (internal_name "/w" "a.txt" (normTraversal "../x") f, f))
    ∧ (Archive.mk Writer.targz [("../x/a.txt", "a.txt")]).entries
        = (["a.txt"] : List String).map
            (fun f => (internal_name "/w" "a.txt" (normTraversal "../x") f, f)) :=
  ⟨c4_entry_count.1 "/w" ["a.txt", "b.txt"] "../x" "a.txt" "x.zip"
      (Archive.mk Writer.zip [("../x/a.txt", "a.txt"), ("b.txt", "b.txt")]) rfl,
   (c4_entry_count.2 "/w" ["a.txt"] "../x" "a.txt" "o.zip" [("old.txt", "old.txt")]
      (Archive.mk Writer.zip
        [("old.txt", "old.txt"), ("../x/a.txt", "a.txt")]) rfl).1 (Or.inl rfl),
   (c4_entry_count.2 "/w" ["a.txt"] "../x" "a.txt" "o.tgz" [("old.txt", "old.txt")]
      (Archive.mk Writer.targz [("../x/a.txt", "a.txt")]) rfl).2 (Or.inl rfl)⟩

/-- C10 counterexample: the output name `.gz` ends in `".gz"`, yet `splitext`
treats the leading dot of a hidden-file base name as part of the name rather
than an extension separator, so the build rejects it as an unsupported (empty)
extension instead of selecting the gzip tar writer. -/
theorem c10_counterexample :
    List.isSuffixOf (".gz" : String).data (".gz" : String).data = true
    ∧ build_archive "/w" ["a.txt"] "../x" "a.txt" ".gz" none
        = Except.error "Unsupported archive extension: " :=
  ⟨rfl, rfl⟩

/-- C10 amended: dispatch considers only the extension `splitext` computes —
the substring from the last dot of the base name, provided a non-dot
character stands before that dot (so hidden-file names like `.gz` have no
extension and are rejected).  With that proviso, a lower-cased extension of
`.gz` or `.tgz` selects the gzip tar writer and `.bz2` the bzip2 tar writer
even without a preceding `.tar`; and a backslash-terminated traversal path
counts as separator-terminated, so no `/` is appended to it. -/
theorem c10_amended_dispatch :
    (∀ out : String,
        lowerStr (splitextExt out) = ".gz" ∨ lowerStr (splitextExt out) = ".tgz" →
        ∀ (cwd : String) (files : List String) (tp target : String)
          (pre : Option (List (String × String))),
          Except.map Archive.writer (build_archive cwd files tp target out pre)
            = Except.ok Writer.targz)
    ∧ (∀ out : String, lowerStr (splitextExt out) = ".bz2" →
        ∀ (cwd : String) (files : List String) (tp target : String)
          (pre : Option (List (String × String))),
          Except.map Archive.writer (build_archive cwd files tp target out pre)
            = Except.ok Writer.tarbz2)
    ∧ (∀ tp : String, tp.data.getLast? = some '\\' → normTraversal tp = tp) := by
  refine ⟨?_, ?_, ?_⟩
  · intro out hout cwd files tp target pre
    rcases hout with h | h <;> simp [build_archive, h, Except.map]
  · intro out h cwd files tp target pre
    simp [build_archive, h, Except.map]
  · intro tp h
    have hends : endsWithSlashOrBackslash tp = true := by
      unfold endsWithSlashOrBackslash
      rw [h]
      rfl
    simp [normTraversal, hends]

/-- Witness for C10's amended statement: `x.gz` (no `.tar`) selects the gzip
tar writer, `x.bz2` the bzip2 tar writer, and the backslash-terminated
traversal path `..\x\` is left untouched. -/
theorem c10_amended_witness :
    Except.map Archive.writer
        (build_archive "/w" ["a.txt"] "p" "a.txt" "x.gz" none)
      = Except.ok Writer.targz
    ∧ Except.map Archive.writer
        (build_archive "/w" ["a.txt"] "p" "a.txt" "x.bz2" none)
      = Except.ok Writer.tarbz2
    ∧ normTraversal "..\\x\\" = "..\\x\\" :=
  ⟨c10_amended_dispatch.1 "x.gz" (Or.inl rfl) "/w" ["a.txt"] "p" "a.txt" none,
   c10_amended_dispatch.2.1 "x.bz2" rfl "/w" ["a.txt"] "p" "a.txt" none,
   c10_amended_dispatch.2.2 "..\\x\\" rfl⟩

end EvilArc
